import Mathlib

/-!
Verification of the nexus Sobel edge-detection repository.

The repository computes a Sobel edge filter over a byte grid in three
variants: an MPI version with 1-D row decomposition and non-blocking halo
exchange (phase2/src/sobel_mbi.c), a single-process version
(src/sequential.c), and an OpenMP task version (src/task.c).

Shallow embedding conventions:
- Byte buffers are modelled as total functions. A flat C buffer indexed by
  y * width + x is modelled as a two-argument function from row and column
  for the MPI code (every pointer offset there is a whole number of rows),
  and as a one-argument function on flat Int indices for the Image struct
  of sequential.c and task.c, mirroring the explicit index arithmetic of
  get_pixel.
- C int arithmetic is modelled on Int, array contents on Nat.
- The C calls round(sqrt((double) n)) and (int)sqrt((double) n), for n an
  integer sum of two squares bounded by 2 * 1020 * 1020, are exact: sqrt is
  correctly rounded and the distance from sqrt(n) to the nearest half
  integer or integer boundary far exceeds the double rounding error at this
  magnitude. They are therefore modelled as exact integer functions of n.
  The function isqrt below is a fuel-based, kernel-computable integer square
  root; the theorem isqrt_eq_sqrt proves it equal to Nat.sqrt, so roundSqrt
  n equals (Nat.sqrt (4 * n) + 1) / 2, the exact value of round(sqrt(n)).
- Uninitialized memory (the malloc of local_out in sobel_mbi.c, which is
  never memset) is modelled by an explicit junk parameter giving the
  initial contents of the local output buffer.
- The MPI halo exchange is modelled by two buffer states: local_with_halo_pre
  is the buffer during the overlap window, in the execution where in-flight
  receives land only at MPI_Waitall (the receive slots still hold the
  memset value 0), and local_with_halo is the buffer after MPI_Waitall,
  with every halo row populated by the matching send of the neighbor rank
  or by the clamping memcpy at the global edges.
-/

/-- Fuel-based integer square root, structurally recursive so that the
kernel can evaluate it on literals. Computes the floor of the real square
root; see isqrt_fuel_eq. -/
def isqrt_fuel : Nat → Nat → Nat
  | 0, _ => 0
  | f + 1, n =>
    if n < 2 then n
    else
      let s := 2 * isqrt_fuel f (n / 4)
      if (s + 1) * (s + 1) ≤ n then s + 1 else s

/-- Integer square root: the floor of the real square root. Equal to
Nat.sqrt by isqrt_eq_sqrt; this embeds the exact value of the C expression
(int)sqrt((double) n) for the operand range of this program. -/
def isqrt (n : Nat) : Nat := isqrt_fuel n n

/-- Round-to-nearest square root: the exact value of the C expression
(int)round(sqrt((double) n)) for the operand range of this program. By
roundSqrt_eq_sqrt_form it equals (Nat.sqrt (4 * n) + 1) / 2, which is the
nearest integer to the real square root of n. -/
def roundSqrt (n : Nat) : Nat := (isqrt (4 * n) + 1) / 2

/-- Horizontal Sobel sum, from sobel_mbi.c line 68 (identically from
sequential.c lines 129-131 and task.c lines 123-125). -/
def sobel_gx (p00 p02 p10 p12 p20 p22 : Int) : Int :=
  -p00 + p02 - 2 * p10 + 2 * p12 - p20 + p22

/-- Vertical Sobel sum, from sobel_mbi.c line 69 (identically from
sequential.c lines 133-134 and task.c lines 127-128). -/
def sobel_gy (p00 p01 p02 p20 p21 p22 : Int) : Int :=
  -p00 - 2 * p01 - p02 + p20 + 2 * p21 + p22

/-- Rows assigned to a rank, from sobel_mbi.c lines 124-126:
base = height / size, rem = height % size,
local_rows = base + (rank < rem ? 1 : 0). -/
def local_rows (height size rank : Nat) : Nat :=
  height / size + (if rank < height % size then 1 else 0)

/-- Scatter and gather byte counts per rank, from sobel_mbi.c line 137:
send_counts[r] = rowsr * width. -/
def send_counts (height size width r : Nat) : Nat := local_rows height size r * width

/-- Scatter and gather byte displacements per rank, from the loop of
sobel_mbi.c lines 134-140: displs[r] is the running offset before rank r,
advanced by send_counts[r]. -/
def displs (height size width : Nat) : Nat → Nat
  | 0 => 0
  | r + 1 => displs height size width r + send_counts height size width r

/-- First global row owned by a rank: the prefix sum of local_rows below
it. Related to the byte displacements by displs_eq_start_row. -/
def start_row (height size : Nat) : Nat → Nat
  | 0 => 0
  | r + 1 => start_row height size r + local_rows height size r

/-- Dimension validation, from sobel_mbi.c lines 117-121: the run is
aborted with exit code 1 exactly when width <= 0 or height <= 0; this is
the only configuration check performed before the partition is computed. -/
def dims_valid (width height : Int) : Bool :=
  !(decide (width ≤ 0) || decide (height ≤ 0))

/-- Helper for owner: the largest rank t at most r with start_row t <= y. -/
def owner_go (H N y : Nat) : Nat → Nat
  | 0 => 0
  | r + 1 => if start_row H N (r + 1) ≤ y then r + 1 else owner_go H N y r

/-- The rank whose gathered block contains global row y (for y < H): the
gather of sobel_mbi.c lines 255-257 places the block of rank r at byte
offset displs[r], so row y of the gathered image comes from the unique rank
with start_row r <= y < start_row (r+1). -/
def owner (H N y : Nat) : Nat := owner_go H N y (N - 1)

/-- Stencil kernel sobel_on_local_chunk, from sobel_mbi.c lines 44-75. The
source buffer holds rows + 2 rows (top halo, real rows, bottom halo); the
value written to destination row r, column x is returned, for r < rows and
x < width. Column indices clamp to the edges; row indices are trusted to
the caller. The rows argument only bounds the C loop and does not affect
the per-pixel value, hence the underscore. -/
def sobel_on_local_chunk (src : Nat → Nat → Nat) (width : Nat) (_rows : Nat) :
    Nat → Nat → Nat :=
  fun r x =>
    let y := r + 1
    let xm1 := if x = 0 then 0 else x - 1
    let xp1 := if x = width - 1 then width - 1 else x + 1
    let p00 : Int := src (y - 1) xm1
    let p01 : Int := src (y - 1) x
    let p02 : Int := src (y - 1) xp1
    let p10 : Int := src y xm1
    let p12 : Int := src y xp1
    let p20 : Int := src (y + 1) xm1
    let p21 : Int := src (y + 1) x
    let p22 : Int := src (y + 1) xp1
    let gx := sobel_gx p00 p02 p10 p12 p20 p22
    let gy := sobel_gy p00 p01 p02 p20 p21 p22
    let mag := roundSqrt (gx * gx + gy * gy).toNat
    if mag > 255 then 255 else mag

/-- One C call sobel_on_local_chunk(buf + srcOff*width, out + dstOff*width,
width, count), viewed as the update it performs on the destination buffer:
rows dstOff .. dstOff + count - 1 are written from the chunk kernel run on
the row-shifted source, all other rows keep their previous contents. -/
def write_chunk (buf : Nat → Nat → Nat) (width srcOff dstOff count : Nat)
    (out0 : Nat → Nat → Nat) : Nat → Nat → Nat :=
  fun q x =>
    if dstOff ≤ q ∧ q < dstOff + count then
      sobel_on_local_chunk (fun j z => buf (srcOff + j) z) width count (q - dstOff) x
    else out0 q x

/-- Interior pass, from sobel_mbi.c lines 210-219: when local_rows >= 3 it
sets interior_start = 1, interior_end = local_rows - 2, and calls the chunk
kernel with source and destination both offset by (interior_start - 1)
rows, i.e. by 0, for interior_count = local_rows - 2 rows. It therefore
writes output rows 0 .. local_rows - 3 and its row 0 computation reads
buffer row 0, the top halo. The buf argument is the buffer as it stands
during the overlap window. -/
def after_interior (width rows : Nat) (buf out0 : Nat → Nat → Nat) : Nat → Nat → Nat :=
  if 3 ≤ rows then
    let interior_start := 1
    let interior_end := rows - 2
    let interior_count := interior_end - interior_start + 1
    write_chunk buf width (interior_start - 1) (interior_start - 1) interior_count out0
  else out0

/-- Boundary pass, from sobel_mbi.c lines 234-239: after MPI_Waitall, when
local_rows >= 1 the chunk kernel is run for 1 row at offset 0 (top
boundary) and, when local_rows > 1, for 1 row at offset local_rows - 1
(bottom boundary). The buf argument is the buffer after the halo exchange
has completed. -/
def after_boundary (width rows : Nat) (buf out0 : Nat → Nat → Nat) : Nat → Nat → Nat :=
  if 1 ≤ rows then
    let out1 := write_chunk buf width 0 0 1 out0
    if 1 < rows then write_chunk buf width (rows - 1) (rows - 1) 1 out1 else out1
  else out0

/-- The local buffer of rank r after the halo exchange completes, from
sobel_mbi.c lines 150-200 and 224-226. Row 0 is the top halo: the clamping
memcpy of the own first real row when rank 0 (line 183), otherwise the last
real row of rank r - 1 (Irecv tag 100 at line 180 matching the Isend tag
100 of the neighbor at line 199). Row rows + 1 is the bottom halo: the
clamping memcpy of the own last real row when rank N - 1 (line 190),
otherwise the first real row of rank r + 1 (Irecv tag 101 matching Isend
tag 101). Rows 1 .. rows are the scattered real rows, i.e. global rows
start_row r .. start_row r + rows - 1 of the grid g. -/
def local_with_halo (H N : Nat) (g : Nat → Nat → Nat) (r : Nat) : Nat → Nat → Nat :=
  fun j x =>
    let rows := local_rows H N r
    if j = 0 then
      if r = 0 then g (start_row H N r) x
      else g (start_row H N (r - 1) + local_rows H N (r - 1) - 1) x
    else if j = rows + 1 then
      if r = N - 1 then g (start_row H N r + rows - 1) x
      else g (start_row H N (r + 1)) x
    else g (start_row H N r + (j - 1)) x

/-- The local buffer of rank r during the overlap window, in the modelled
execution where in-flight receives land only at MPI_Waitall: halo rows
filled by the clamping memcpy (at the global edges) already hold their
final contents, halo rows awaited from a neighbor still hold the memset
value 0 of sobel_mbi.c line 151. The final local output provably does not
depend on this choice, because the only interior-pass row reading an
awaited halo row (output row 0) is recomputed by the boundary pass. -/
def local_with_halo_pre (H N : Nat) (g : Nat → Nat → Nat) (r : Nat) : Nat → Nat → Nat :=
  fun j x =>
    let rows := local_rows H N r
    if j = 0 then
      if r = 0 then g (start_row H N r) x else 0
    else if j = rows + 1 then
      if r = N - 1 then g (start_row H N r + rows - 1) x else 0
    else g (start_row H N r + (j - 1)) x

/-- The local output buffer of rank r before thresholding: the interior
pass run on the overlap-window buffer over the uninitialized contents junk,
then the boundary pass run on the post-exchange buffer. Follows the control
flow of sobel_mbi.c lines 202-241. -/
def mpi_local_out (W H N : Nat) (g junk : Nat → Nat → Nat) (r : Nat) : Nat → Nat → Nat :=
  after_boundary W (local_rows H N r) (local_with_halo H N g r)
    (after_interior W (local_rows H N r) (local_with_halo_pre H N g r) junk)

/-- The local output buffer of rank r after the in-place thresholding loop
of sobel_mbi.c lines 244-246: out[i] = (out[i] >= threshold) ? 255 : 0. -/
def mpi_local_thresh (W H N : Nat) (g junk : Nat → Nat → Nat) (T r : Nat) :
    Nat → Nat → Nat :=
  fun q x => if mpi_local_out W H N g junk r q x ≥ T then 255 else 0

/-- The gathered magnitude image (rank outputs before thresholding, placed
at their displs offsets as by MPI_Gatherv): global row y comes from local
row y - start_row (owner y) of rank owner y. -/
def gathered_mag (W H N : Nat) (g junk : Nat → Nat → Nat) (y x : Nat) : Nat :=
  mpi_local_out W H N g junk (owner H N y) (y - start_row H N (owner H N y)) x

/-- The gathered final image of the MPI program: thresholded rank outputs
placed at their displs offsets by MPI_Gatherv (sobel_mbi.c lines 255-257). -/
def gathered_out (W H N : Nat) (g junk : Nat → Nat → Nat) (T y x : Nat) : Nat :=
  mpi_local_thresh W H N g junk T (owner H N y) (y - start_row H N (owner H N y)) x

/-- Thresholder, from sequential.c lines 152-159 (the same elementwise rule
as task.c lines 189-192 and sobel_mbi.c lines 244-246):
dst[i] = (src[i] >= threshold) ? 255 : 0. -/
def threshold_image (src : Nat → Nat) (threshold : Nat) : Nat → Nat :=
  fun i => if src i ≥ threshold then 255 else 0

/-- Image struct of sequential.c and task.c; data is the flat row-major
byte buffer, indexed by y * width + x. -/
structure Image where
  width : Int
  height : Int
  max_val : Int
  data : Int → Nat

/-- Clamp-to-edge pixel read get_pixel, from sequential.c lines 91-103
(identical in task.c lines 91-103). -/
def get_pixel (img : Image) (x y : Int) : Nat :=
  let x1 := if x < 0 then 0 else x
  let x2 := if x1 ≥ img.width then img.width - 1 else x1
  let y1 := if y < 0 then 0 else y
  let y2 := if y1 ≥ img.height then img.height - 1 else y1
  img.data (y2 * img.width + x2)

/-- Per-pixel value of sobel_magnitude, from sequential.c lines 120-144.
The loops there range over 0 <= x < width, 0 <= y < height and store this
value at (x, y) through set_pixel, whose bounds guard always passes on that
range. Note the magnitude is (int)sqrt(...), truncation, not rounding. -/
def sobel_magnitude (input : Image) (x y : Int) : Nat :=
  let gx : Int := sobel_gx (get_pixel input (x - 1) (y - 1)) (get_pixel input (x + 1) (y - 1))
    (get_pixel input (x - 1) y) (get_pixel input (x + 1) y)
    (get_pixel input (x - 1) (y + 1)) (get_pixel input (x + 1) (y + 1))
  let gy : Int := sobel_gy (get_pixel input (x - 1) (y - 1)) (get_pixel input x (y - 1))
    (get_pixel input (x + 1) (y - 1)) (get_pixel input (x - 1) (y + 1))
    (get_pixel input x (y + 1)) (get_pixel input (x + 1) (y + 1))
  let mag : Int := isqrt (gx * gx + gy * gy).toNat
  let mag2 : Int := if mag > 255 then 255 else mag
  let mag3 : Int := if mag2 < 0 then 0 else mag2
  mag3.toNat

/-- Per-pixel value of sobel_tile, from task.c lines 113-138. The tile
loops range over start_y <= y < end_y, start_x <= x < end_x and store this
value at (x, y) through set_pixel. The body is identical to the body of
sobel_magnitude in sequential.c. -/
def sobel_tile_value (input : Image) (x y : Int) : Nat :=
  let gx : Int := sobel_gx (get_pixel input (x - 1) (y - 1)) (get_pixel input (x + 1) (y - 1))
    (get_pixel input (x - 1) y) (get_pixel input (x + 1) y)
    (get_pixel input (x - 1) (y + 1)) (get_pixel input (x + 1) (y + 1))
  let gy : Int := sobel_gy (get_pixel input (x - 1) (y - 1)) (get_pixel input x (y - 1))
    (get_pixel input (x + 1) (y - 1)) (get_pixel input (x - 1) (y + 1))
    (get_pixel input x (y + 1)) (get_pixel input (x + 1) (y + 1))
  let mag : Int := isqrt (gx * gx + gy * gy).toNat
  let mag2 : Int := if mag > 255 then 255 else mag
  let mag3 : Int := if mag2 < 0 then 0 else mag2
  mag3.toNat

/-- Tail of the MPI main on rank 0, from sobel_mbi.c lines 268-290: the
first component records whether the save failure message was printed (the
save_pgm branch at lines 272-276 only prints), the second is the value
returned from main, which is 0 on both paths (line 289). The saveOk
argument abstracts the return value of save_pgm. -/
def mpi_root_tail (saveOk : Bool) : Bool × Nat :=
  if saveOk then (false, 0) else (true, 0)

/-- Tail of the sequential main, from sequential.c lines 208-221: on
save_pgm failure the buffers are freed and main returns 1, otherwise it
returns 0. The first component records whether a failure was reported
(save_pgm itself prints on its failure path). -/
def seq_main_tail (saveOk : Bool) : Bool × Nat :=
  if saveOk then (false, 0) else (true, 1)

/-- Modelled from the spec: the output of a single-worker, non-partitioned
stencil computation over the full W x H grid, used as the comparison target
of the partitioning-equivalence law. Each pixel uses its 3 x 3 neighborhood
with clamp-to-edge at all four grid borders and the round-then-clamp
magnitude of the MPI kernel. -/
def spec_single_worker_sobel (W H : Nat) (g : Nat → Nat → Nat) (y x : Nat) : Nat :=
  let ym1 := y - 1
  let yp1 := min (y + 1) (H - 1)
  let xm1 := x - 1
  let xp1 := min (x + 1) (W - 1)
  let p00 : Int := g ym1 xm1
  let p01 : Int := g ym1 x
  let p02 : Int := g ym1 xp1
  let p10 : Int := g y xm1
  let p12 : Int := g y xp1
  let p20 : Int := g yp1 xm1
  let p21 : Int := g yp1 x
  let p22 : Int := g yp1 xp1
  let gx := sobel_gx p00 p02 p10 p12 p20 p22
  let gy := sobel_gy p00 p01 p02 p20 p21 p22
  let mag := roundSqrt (gx * gx + gy * gy).toNat
  if mag > 255 then 255 else mag

/-- Round-then-clamp magnitude of a 3 x 3 neighborhood (p11 does not enter
the sums): the value the spec asserts every kernel variant stores. -/
def spec_round_clamp_mag (p00 p01 p02 p10 p12 p20 p21 p22 : Nat) : Nat :=
  min (roundSqrt (Int.toNat (sobel_gx p00 p02 p10 p12 p20 p22 * sobel_gx p00 p02 p10 p12 p20 p22 +
    sobel_gy p00 p01 p02 p20 p21 p22 * sobel_gy p00 p01 p02 p20 p21 p22))) 255

/-- Truncate-then-clamp magnitude of a 3 x 3 neighborhood: the value the
sequential and task kernels actually store. -/
def spec_floor_clamp_mag (p00 p01 p02 p10 p12 p20 p21 p22 : Nat) : Nat :=
  min (isqrt (Int.toNat (sobel_gx p00 p02 p10 p12 p20 p22 * sobel_gx p00 p02 p10 p12 p20 p22 +
    sobel_gy p00 p01 p02 p20 p21 p22 * sobel_gy p00 p01 p02 p20 p21 p22))) 255

/-- Concrete 1-column, 3-row grid with a bright bottom row. -/
def gEdge : Nat → Nat → Nat := fun y _ => if y = 2 then 255 else 0

/-- Zero-initialized junk contents for a local output buffer. -/
def junk0 : Nat → Nat → Nat := fun _ _ => 0

/-- Junk contents with the recognizable marker value 7. -/
def junk7 : Nat → Nat → Nat := fun _ _ => 7

/-- Junk contents with the value 1 (at or above a threshold of 1). -/
def junk1 : Nat → Nat → Nat := fun _ _ => 1

/-- Junk contents with the value 9. -/
def junk9 : Nat → Nat → Nat := fun _ _ => 9

/-- Local buffer of a 3-row, 1-column block whose real rows and bottom halo
are 0 while the top halo row holds h. -/
def halo3 (h : Nat) : Nat → Nat → Nat := fun j _ => if j = 0 then h else 0

/-- All-zero local buffer. -/
def bz : Nat → Nat → Nat := fun _ _ => 0

/-- Constant all-255 grid. -/
def gFlat255 : Nat → Nat → Nat := fun _ _ => 255

/-- Constant all-10 grid (the 2 x 2 end-to-end scenario of the spec). -/
def gFlat10 : Nat → Nat → Nat := fun _ _ => 10

/-- Concrete 3 x 3 image, all zero except pixel (2, 2) = 2 (flat index 8). -/
def imgCex : Image :=
  { width := 3, height := 3, max_val := 255, data := fun i => if i = 8 then 2 else 0 }

/-- The all-zero 1 x 1 image. -/
def imgZ : Image := { width := 1, height := 1, max_val := 255, data := fun _ => 0 }

/-- All-zero chunk source buffer. -/
def czero : Nat → Nat → Nat := fun _ _ => 0

/-- Uniqueness of the integer square root. -/
theorem sqrt_eval {a n : Nat} (h1 : a * a ≤ n) (h2 : n < (a + 1) * (a + 1)) :
    Nat.sqrt n = a :=
  (Nat.eq_sqrt.mpr ⟨h1, h2⟩).symm

/-- With enough fuel, isqrt_fuel computes Nat.sqrt. -/
theorem isqrt_fuel_eq (f : Nat) : ∀ n, n < 4 ^ f → isqrt_fuel f n = Nat.sqrt n := by
  induction f with
  | zero =>
    intro n h
    have hn : n = 0 := by omega
    subst hn
    simp [isqrt_fuel]
  | succ f ih =>
    intro n h
    by_cases h2 : n < 2
    · have hv : isqrt_fuel (f + 1) n = n := by
        unfold isqrt_fuel
        rw [if_pos h2]
      rw [hv]
      interval_cases n
      · simp
      · simp
    · have hq : n / 4 < 4 ^ f := by
        rw [Nat.div_lt_iff_lt_mul (by norm_num)]
        calc n < 4 ^ (f + 1) := h
        _ = 4 ^ f * 4 := by rw [pow_succ]
      have hrec : isqrt_fuel f (n / 4) = Nat.sqrt (n / 4) := ih _ hq
      have hdm : 4 * (n / 4) + n % 4 = n := Nat.div_add_mod n 4
      have hm4 : n % 4 < 4 := Nat.mod_lt _ (by norm_num)
      have h1 : Nat.sqrt (n / 4) * Nat.sqrt (n / 4) ≤ n / 4 := Nat.sqrt_le _
      have h2' : n / 4 < (Nat.sqrt (n / 4) + 1) * (Nat.sqrt (n / 4) + 1) :=
        Nat.lt_succ_sqrt _
      have hstep : isqrt_fuel (f + 1) n =
          (if (2 * Nat.sqrt (n / 4) + 1) * (2 * Nat.sqrt (n / 4) + 1) ≤ n
           then 2 * Nat.sqrt (n / 4) + 1 else 2 * Nat.sqrt (n / 4)) := by
        unfold isqrt_fuel
        rw [if_neg h2, hrec]
      rw [hstep]
      by_cases h6 : (2 * Nat.sqrt (n / 4) + 1) * (2 * Nat.sqrt (n / 4) + 1) ≤ n
      · rw [if_pos h6]
        symm
        apply sqrt_eval h6
        have hub : n / 4 + 1 ≤ (Nat.sqrt (n / 4) + 1) * (Nat.sqrt (n / 4) + 1) := h2'
        have hmul : 4 * (n / 4 + 1) ≤ 4 * ((Nat.sqrt (n / 4) + 1) * (Nat.sqrt (n / 4) + 1)) :=
          Nat.mul_le_mul_left _ hub
        nlinarith
      · rw [if_neg h6]
        symm
        apply sqrt_eval
        · have hA : 4 * (Nat.sqrt (n / 4) * Nat.sqrt (n / 4)) ≤ 4 * (n / 4) :=
            Nat.mul_le_mul_left _ h1
          have hB : 2 * Nat.sqrt (n / 4) * (2 * Nat.sqrt (n / 4)) =
              4 * (Nat.sqrt (n / 4) * Nat.sqrt (n / 4)) := by ring
          omega
        · omega

/-- The fuel-based integer square root computes Nat.sqrt. -/
theorem isqrt_eq_sqrt (n : Nat) : isqrt n = Nat.sqrt n :=
  isqrt_fuel_eq n n (Nat.lt_pow_self (by norm_num) n)

/-- roundSqrt is the round-to-nearest square root in closed form. -/
theorem roundSqrt_eq_sqrt_form (n : Nat) : roundSqrt n = (Nat.sqrt (4 * n) + 1) / 2 := by
  unfold roundSqrt
  rw [isqrt_eq_sqrt]

/-- Ceiling division in terms of floor division when the remainder is
positive. -/
theorem ceil_div_eq {H N : Nat} (hN : 0 < N) (hmod : 0 < H % N) :
    (H + N - 1) / N = H / N + 1 := by
  have hdm : N * (H / N) + H % N = H := Nat.div_add_mod H N
  have hlt : H % N < N := Nat.mod_lt _ hN
  have h1 : H + N - 1 = ((H % N - 1) + N) + N * (H / N) := by omega
  rw [h1, Nat.add_mul_div_left _ _ hN, Nat.add_div_right _ hN,
    Nat.div_eq_of_lt (by omega)]
  omega

/-- Partial sums of the row counts. -/
theorem sum_counts (H N : Nat) (n : Nat) :
    ((Finset.range n).sum fun r => local_rows H N r) = n * (H / N) + min n (H % N) := by
  induction n with
  | zero => simp
  | succ k ih =>
    rw [Finset.sum_range_succ, ih, Nat.succ_mul]
    unfold local_rows
    rcases Nat.lt_or_ge k (H % N) with h | h
    · rw [if_pos h, Nat.min_eq_left (by omega), Nat.min_eq_left (by omega)]
      omega
    · rw [if_neg (by omega), Nat.min_eq_right (by omega), Nat.min_eq_right (by omega)]
      omega

/-- The row counts sum to the full height. -/
theorem sum_counts_eq (H N : Nat) (hN : 0 < N) :
    ((Finset.range N).sum fun r => local_rows H N r) = H := by
  rw [sum_counts]
  have hdm : N * (H / N) + H % N = H := Nat.div_add_mod H N
  have hlt : H % N < N := Nat.mod_lt _ hN
  rw [Nat.min_eq_right (by omega)]
  omega

/-- Byte displacements are the start rows scaled by the width: the scatter
and gather ranges are contiguous in rank order. -/
theorem displs_eq_start_row (H N W : Nat) (r : Nat) :
    displs H N W r = start_row H N r * W := by
  induction r with
  | zero => simp [displs, start_row]
  | succ k ih =>
    show displs H N W k + send_counts H N W k = _
    rw [ih]
    show _ = (start_row H N k + local_rows H N k) * W
    rw [Nat.add_mul]
    rfl

/-- The left column clamp of the chunk kernel is truncated subtraction. -/
theorem col_m1 (x : Nat) : (if x = 0 then 0 else x - 1) = x - 1 := by
  cases x <;> simp

/-- The right column clamp of the chunk kernel is min with width - 1. -/
theorem col_p1 {x w : Nat} (hx : x < w) :
    (if x = w - 1 then w - 1 else x + 1) = min (x + 1) (w - 1) := by
  split_ifs with h
  · rw [Nat.min_eq_right (by omega)]
  · rw [Nat.min_eq_left (by omega)]

/-- The high clamp of the chunk kernel is min with 255. -/
theorem ite_clamp_min (m : Nat) : (if m > 255 then 255 else m) = min m 255 := by
  split_ifs <;> omega

/-- The Int-side clamp pair of the sequential kernel collapses to a Nat
min: the low clamp is dead, the magnitude being nonnegative. -/
theorem int_clamp_eq (m : Nat) :
    (if (if ((m : Int)) > 255 then (255 : Int) else (m : Int)) < 0 then (0 : Int)
     else (if ((m : Int)) > 255 then (255 : Int) else (m : Int))).toNat = min m 255 := by
  split_ifs <;> omega

/-- C1. The partitioned computation does not equal the single-worker
non-partitioned stencil at every coordinate. On the 1 x 3 grid gEdge with
one worker (H = 3 >= N = 1) and zero-initialized uninitialized memory, the
gathered magnitude at global row 1 is the junk value 0, because the
interior pass writes output rows 0 .. local_rows - 3 instead of
1 .. local_rows - 2 and the boundary pass writes only rows 0 and
local_rows - 1, so row local_rows - 2 = 1 is never written; the
non-partitioned computation yields 255 there. Rows 0 and 2 agree. -/
theorem c1_partition_equivalence_fails :
    gathered_mag 1 3 1 gEdge junk0 1 0 = 0 ∧
    spec_single_worker_sobel 1 3 gEdge 1 0 = 255 ∧
    gathered_mag 1 3 1 gEdge junk0 0 0 = spec_single_worker_sobel 1 3 gEdge 0 0 ∧
    gathered_mag 1 3 1 gEdge junk0 2 0 = spec_single_worker_sobel 1 3 gEdge 2 0 := by
  decide

/-- C2. The Row Partition Table: count formula, zero first offset, offset
recurrence, floor-or-ceiling counts, counts differing by at most 1,
contiguity of the byte ranges in rank order, and counts summing to H. -/
theorem c2_row_partition_table (H N W r s : Nat) (hN : 1 ≤ N) (hHN : N ≤ H) :
    local_rows H N r = H / N + (if r < H % N then 1 else 0) ∧
    displs H N W 0 = 0 ∧
    displs H N W (r + 1) = displs H N W r + local_rows H N r * W ∧
    (local_rows H N r = H / N ∨ local_rows H N r = (H + N - 1) / N) ∧
    local_rows H N r ≤ local_rows H N s + 1 ∧
    displs H N W r = start_row H N r * W ∧
    ((Finset.range N).sum fun t => local_rows H N t) = H := by
  refine ⟨rfl, rfl, rfl, ?_, ?_, displs_eq_start_row H N W r, sum_counts_eq H N hN⟩
  · by_cases hr : r < H % N
    · right
      rw [ceil_div_eq hN (by omega)]
      unfold local_rows
      rw [if_pos hr]
    · left
      unfold local_rows
      rw [if_neg hr, Nat.add_zero]
  · unfold local_rows
    split_ifs <;> omega

/-- Witness for C2 at H = 5, N = 2, W = 3, r = 0, s = 1 (the uneven
partition scenario of the spec). -/
theorem c2_row_partition_table_witness :
    local_rows 5 2 0 = 5 / 2 + (if 0 < 5 % 2 then 1 else 0) ∧
    displs 5 2 3 0 = 0 ∧
    displs 5 2 3 (0 + 1) = displs 5 2 3 0 + local_rows 5 2 0 * 3 ∧
    (local_rows 5 2 0 = 5 / 2 ∨ local_rows 5 2 0 = (5 + 2 - 1) / 2) ∧
    local_rows 5 2 0 ≤ local_rows 5 2 1 + 1 ∧
    displs 5 2 3 0 = start_row 5 2 0 * 3 ∧
    ((Finset.range 2).sum fun t => local_rows 5 2 t) = 5 :=
  c2_row_partition_table 5 2 3 0 1 (by decide) (by decide)

/-- C3. The interior pass is not independent of the halo rows: on a 3-row,
1-column block it writes output row 0 from buffer rows 0, 1, 2, and buffer
row 0 is the top halo, so changing the top halo from 0 to 255 changes the
interior-pass output. When local_rows < 3 the pass is indeed a no-op. -/
theorem c3_interior_reads_top_halo :
    after_interior 1 3 (halo3 255) junk0 0 0 = 255 ∧
    after_interior 1 3 (halo3 0) junk0 0 0 = 0 ∧
    ∀ buf out0 : Nat → Nat → Nat, after_interior 1 2 buf out0 = out0 := by
  refine ⟨by decide, by decide, ?_⟩
  intro buf out0
  rfl

/-- C4. The configuration H < N is not rejected: the only validation before
the partition accepts any positive dimensions, and the partition then
assigns one row to each rank below H and zero rows to every rank from H on,
entering the computation with zero-row workers. -/
theorem c4_h_lt_n_not_rejected (W H N r : Nat) (hW : 0 < W) (hH : 0 < H) (hHN : H < N) :
    dims_valid (W : Int) (H : Int) = true ∧
    local_rows H N r = if r < H then 1 else 0 := by
  constructor
  · have h1 : ¬((W : Int) ≤ 0) := by omega
    have h2 : ¬((H : Int) ≤ 0) := by omega
    unfold dims_valid
    rw [decide_eq_false h1, decide_eq_false h2]
    rfl
  · unfold local_rows
    rw [Nat.div_eq_of_lt hHN, Nat.mod_eq_of_lt hHN, Nat.zero_add]

/-- Witness for C4 at W = 4, H = 1, N = 2, r = 1: the run is admitted and
rank 1 receives zero rows. -/
theorem c4_h_lt_n_not_rejected_witness :
    dims_valid ((4 : Nat) : Int) ((1 : Nat) : Int) = true ∧
    local_rows 1 2 1 = if 1 < 1 then 1 else 0 :=
  c4_h_lt_n_not_rejected 4 1 2 1 (by decide) (by decide) (by decide)

/-- Counterexample for C4: with width 4 and H = 1 < N = 2 the dimension
check passes, so the computation is entered, and rank 1 receives zero
rows — the claimed reported failure does not exist in the code. -/
theorem c4_counterexample :
    dims_valid 4 1 = true ∧ local_rows 1 2 1 = 0 := by
  decide

/-- C5. What each kernel variant stores. The MPI chunk kernel stores the
round-then-clamp magnitude of its column-clamped neighborhood; the
sequential kernel stores the truncate-then-clamp magnitude of its
get_pixel neighborhood; the task kernel stores exactly the sequential
value. -/
theorem c5_kernel_magnitude_by_variant (src : Nat → Nat → Nat) (w rows r x : Nat)
    (hx : x < w) (img : Image) (xi yi : Int) :
    sobel_on_local_chunk src w rows r x =
      spec_round_clamp_mag (src r (x - 1)) (src r x) (src r (min (x + 1) (w - 1)))
        (src (r + 1) (x - 1)) (src (r + 1) (min (x + 1) (w - 1)))
        (src (r + 2) (x - 1)) (src (r + 2) x) (src (r + 2) (min (x + 1) (w - 1))) ∧
    sobel_magnitude img xi yi =
      spec_floor_clamp_mag (get_pixel img (xi - 1) (yi - 1)) (get_pixel img xi (yi - 1))
        (get_pixel img (xi + 1) (yi - 1)) (get_pixel img (xi - 1) yi)
        (get_pixel img (xi + 1) yi) (get_pixel img (xi - 1) (yi + 1))
        (get_pixel img xi (yi + 1)) (get_pixel img (xi + 1) (yi + 1)) ∧
    sobel_tile_value img xi yi = sobel_magnitude img xi yi := by
  refine ⟨?_, ?_, rfl⟩
  · simp only [sobel_on_local_chunk, spec_round_clamp_mag, col_m1, col_p1 hx,
      ite_clamp_min, Nat.add_sub_cancel]
  · simp only [sobel_magnitude, spec_floor_clamp_mag]
    exact int_clamp_eq _

/-- Witness for C5 at the all-zero chunk and the all-zero 1 x 1 image. -/
theorem c5_kernel_magnitude_by_variant_witness :
    sobel_on_local_chunk czero 1 1 0 0 = 0 ∧
    sobel_tile_value imgZ 0 0 = sobel_magnitude imgZ 0 0 :=
  ⟨by rw [(c5_kernel_magnitude_by_variant czero 1 1 0 0 (by decide) imgZ 0 0).1]; decide,
   (c5_kernel_magnitude_by_variant czero 1 1 0 0 (by decide) imgZ 0 0).2.2⟩

/-- Counterexample for C5: on the 3 x 3 image imgCex at pixel (1, 1) the
neighborhood has Gx = Gy = 2, so the round-then-clamp magnitude the claim
asserts is round(sqrt(8)) = 3, but the sequential kernel stores
trunc(sqrt(8)) = 2. -/
theorem c5_counterexample :
    spec_round_clamp_mag (get_pixel imgCex 0 0) (get_pixel imgCex 1 0)
      (get_pixel imgCex 2 0) (get_pixel imgCex 0 1) (get_pixel imgCex 2 1)
      (get_pixel imgCex 0 2) (get_pixel imgCex 1 2) (get_pixel imgCex 2 2) = 3 ∧
    sobel_magnitude imgCex 1 1 = 2 := by
  decide

/-- C6. The two passes do not cover all local rows. On a 3-row, 1-column
all-zero block with junk marker 7, rows 0 and 2 hold the computed magnitude
0 but row local_rows - 2 = 1 still holds the junk marker 7 after both
passes: it is written by neither the interior pass (rows 0 .. local_rows-3)
nor the boundary pass (rows 0 and local_rows - 1). -/
theorem c6_row_coverage_gap :
    after_boundary 1 3 bz (after_interior 1 3 bz junk7) 1 0 = 7 ∧
    after_boundary 1 3 bz (after_interior 1 3 bz junk7) 0 0 = 0 ∧
    after_boundary 1 3 bz (after_interior 1 3 bz junk7) 2 0 = 0 := by
  decide

/-- C7. The Thresholder contract: each output element is 255 when the input
is at or above the threshold and 0 otherwise, so every output element is 0
or 255. -/
theorem c7_thresholder_contract (d : Nat → Nat) (T i : Nat) (hT : T ≤ 255) :
    threshold_image d T i = (if d i ≥ T then 255 else 0) ∧
    (threshold_image d T i = 0 ∨ threshold_image d T i = 255) := by
  refine ⟨rfl, ?_⟩
  unfold threshold_image
  split_ifs <;> simp

/-- Witness for C7 at the constant buffer 7, threshold 5, index 0. -/
theorem c7_thresholder_contract_witness :
    threshold_image (fun _ => 7) 5 0 = (if (7 : Nat) ≥ 5 then 255 else 0) ∧
    (threshold_image (fun _ => 7) 5 0 = 0 ∨ threshold_image (fun _ => 7) 5 0 = 255) :=
  c7_thresholder_contract (fun _ => 7) 5 0 (by decide)

/-- C8. The Thresholder is idempotent at every threshold in [0, 255]: the
first pass yields only 0 and 255; 255 is at or above any such threshold,
and 0 is below any positive threshold, while a threshold of 0 maps
everything to 255 on both passes. -/
theorem c8_threshold_idempotent (d : Nat → Nat) (T : Nat) (hT : T ≤ 255) (i : Nat) :
    threshold_image (threshold_image d T) T i = threshold_image d T i := by
  unfold threshold_image
  rcases le_or_lt T (d i) with h | h
  · rw [if_pos h, if_pos (by omega)]
  · have h1 : ¬(d i ≥ T) := by omega
    have h2 : ¬((0 : Nat) ≥ T) := by omega
    rw [if_neg h1, if_neg h2]

/-- Witness for C8 at the constant buffer 7, threshold 5, index 0. -/
theorem c8_threshold_idempotent_witness :
    threshold_image (threshold_image (fun _ => 7) 5) 5 0 = threshold_image (fun _ => 7) 5 0 :=
  c8_threshold_idempotent (fun _ => 7) 5 (by decide) 0

/-- C9. Flat fields do give zero gradient wherever the kernel runs, and the
2 x 2 all-10 grid split across two one-row workers thresholds to all zeros,
but the output is not all-zero for every split: a 4 x 4 all-255 grid on one
worker leaves local row 2 unwritten, so with uninitialized contents 1 and
threshold 1 the gathered output at global row 2 is 255, not 0. -/
theorem c9_flat_field_not_all_zero :
    gathered_out 4 4 1 gFlat255 junk1 1 2 0 = 255 ∧
    gathered_out 4 4 1 gFlat255 junk1 1 0 0 = 0 ∧
    gathered_out 4 4 1 gFlat255 junk1 1 3 3 = 0 ∧
    gathered_out 2 2 2 gFlat10 junk9 1 0 0 = 0 ∧
    gathered_out 2 2 2 gFlat10 junk9 1 1 1 = 0 := by
  decide

/-- C10. Exit behavior at the save step: the MPI root reports an encode
failure but still returns 0 from main, while the sequential main returns 1
on encode failure; both return 0 on success. -/
theorem c10_exit_codes :
    ∀ ok : Bool, mpi_root_tail ok = (!ok, 0) ∧
      seq_main_tail ok = (!ok, if ok then 0 else 1) := by
  decide

/-- Counterexample for C10: when save_pgm fails in the MPI program the
failure is reported, yet the process exit code is 0, not the claimed
non-zero code. -/
theorem c10_counterexample :
    (mpi_root_tail false).1 = true ∧ (mpi_root_tail false).2 = 0 := by
  decide
